import Mathlib

/-!
Verification of the GuilanCEA event-registration and payment subsystem.

The repository ships the React/TypeScript client (`frontend/src`), whose
relevant modules are embedded here directly:

* `frontend/src/lib/api.ts` — the `ApiClient` with its single-flight token
  refresh (`request`, `refreshAccessToken`, `onRefreshed`,
  `addRefreshSubscriber`) and the endpoint builders;
* `frontend/src/pages/EventDetail.tsx` — the checkout control flow
  (`handleMainCTA`, `handleContinueFromModal`, the `meta` eligibility
  predicate);
* `frontend/src/pages/Events.tsx` — the list-view availability check
  (`spotsLeft`, `isAvailable`).

The Django backend (admission control, settlement) is not part of the
repository files available here; the definitions for those two components are
modelled from the specification text and are marked as such in their doc
comments.
-/

namespace GuilanCEA

/-! ## Admission Controller (modelled from the spec) -/

/-- Modelled from the spec: error taxonomy of `register` (spec section 4.2);
the backend Admission Controller implementation is absent from the
repository files, only its client-facing contract is present. -/
inductive AdmissionError
  | registrationClosed
  | capacityExceeded
  | alreadyRegistered
deriving DecidableEq, Repr

/-- Modelled from the spec: the shared store the Admission Controller guards.
`registered` lists the users holding a non-cancelled registration for the
event; its length is the confirmed/pending registration count. -/
structure AdmissionState where
  registered : List Nat
deriving DecidableEq, Repr

/-- Modelled from the spec: one `register(event_id, user_id)` admission
attempt, as the single atomic unit of spec section 4.2: (1) verify the
registration window is open; (2) verify no existing non-cancelled
registration for the user (first-writer-wins); (3) compare the current
registration count against `capacity` and admit only if strictly below it,
incrementing the count in the same atomic step.  `capacity = none` means
unlimited.  Concurrency over the store`s atomic primitive is captured by
making the whole attempt one state transition, so any interleaving of
attempts is some sequential order of these transitions. -/
def register (capacity : Option Nat) (windowOpen : Bool) (s : AdmissionState)
    (u : Nat) : AdmissionState × Except AdmissionError Unit :=
  if windowOpen = false then (s, Except.error AdmissionError.registrationClosed)
  else if u ∈ s.registered then (s, Except.error AdmissionError.alreadyRegistered)
  else
    match capacity with
    | none => ({ registered := s.registered ++ [u] }, Except.ok ())
    | some cap =>
        if s.registered.length < cap then
          ({ registered := s.registered ++ [u] }, Except.ok ())
        else (s, Except.error AdmissionError.capacityExceeded)

/-- Modelled from the spec: a batch of admission attempts committing their
atomic steps in the given order; returns the final store state and each
attempt`s outcome in order. -/
def runAdmissions (capacity : Option Nat) (windowOpen : Bool) :
    AdmissionState → List Nat → AdmissionState × List (Except AdmissionError Unit)
  | s, [] => (s, [])
  | s, u :: us =>
      let r := register capacity windowOpen s u
      let rest := runAdmissions capacity windowOpen r.1 us
      (rest.1, r.2 :: rest.2)

/-- Did the admission attempt succeed? -/
def isAdmit : Except AdmissionError Unit → Bool
  | Except.ok _ => true
  | Except.error _ => false

/-- Did the admission attempt fail with `CapacityExceededError`? -/
def isCapacityFail : Except AdmissionError Unit → Bool
  | Except.error AdmissionError.capacityExceeded => true
  | _ => false

/-! ## Settlement Reconciler (modelled from the spec) -/

/-- Payment states (spec section 3). -/
inductive PayStatus
  | INIT
  | PENDING
  | PAID
  | FAILED
  | CANCELED
deriving DecidableEq, Repr

/-- Registration states (spec section 3). -/
inductive RegStatus
  | pending
  | confirmed
  | cancelled
  | attended
deriving DecidableEq, Repr

/-- Terminal gateway statuses delivered to `settle` (gateway-success or
gateway-failure callbacks). -/
inductive GatewayStatus
  | success
  | failed
deriving DecidableEq, Repr

/-- The terminal payment state a gateway status maps onto. -/
def GatewayStatus.terminal : GatewayStatus → PayStatus
  | GatewayStatus.success => PayStatus.PAID
  | GatewayStatus.failed => PayStatus.FAILED

/-- Modelled from the spec: a persisted Payment (spec section 3), keyed by
its gateway `ref_id` in the store below. -/
structure PaymentRecord where
  regId : Nat
  status : PayStatus
  amount : Int
deriving DecidableEq, Repr

/-- Modelled from the spec: a Registration as settlement sees it: its state
and its (at most one, immutable once assigned) ticket. -/
structure RegRecord where
  status : RegStatus
  ticket : Option Nat
deriving DecidableEq, Repr

/-- Modelled from the spec: the durable store `settle` transacts against.
`payments` is keyed by `ref_id` (unique once assigned); `couponUses` is the
DiscountCode usage counter incremented only at confirmation; `nextTicket`
feeds the Ticket Issuer`s unique-identifier generator. -/
structure SettleState where
  payments : String → Option PaymentRecord
  regs : Nat → RegRecord
  couponUses : Nat
  nextTicket : Nat

/-- Outcomes of `settle` (spec section 4.4). -/
inductive SettlementOutcome
  | settled (final : PayStatus)
  | unknownReference
  | settlementConflict
deriving DecidableEq, Repr

/-- Modelled from the spec: `settle(ref_id, gateway_status, amount)` (spec
section 4.4).  Look up the Payment by `ref_id`; absent means
`UnknownReferenceError` with no new state.  A Payment already terminal
(`PAID`, `FAILED`, `CANCELED`) is compared with the incoming status: a match
returns the existing outcome unchanged, a conflict surfaces
`SettlementConflictError` without overwriting.  A non-terminal Payment
transitions atomically together with its Registration: gateway-success sets
the Payment `PAID`, the Registration `confirmed`, increments the coupon
usage counter and issues a ticket only if none is present; gateway-failure
sets the Payment `FAILED` and leaves the Registration `pending` (the seat
is not released).  Per spec section 4.3 a `ref_id` is only associated with a
session the gateway acknowledged, so a Payment found by `ref_id` is treated
as awaiting settlement whenever it is not terminal. -/
def settle (st : SettleState) (refId : String) (g : GatewayStatus)
    (amount : Int) : SettleState × SettlementOutcome :=
  match st.payments refId with
  | none => (st, SettlementOutcome.unknownReference)
  | some p =>
      match p.status with
      | PayStatus.PAID =>
          if PayStatus.PAID = g.terminal then (st, SettlementOutcome.settled PayStatus.PAID)
          else (st, SettlementOutcome.settlementConflict)
      | PayStatus.FAILED =>
          if PayStatus.FAILED = g.terminal then (st, SettlementOutcome.settled PayStatus.FAILED)
          else (st, SettlementOutcome.settlementConflict)
      | PayStatus.CANCELED =>
          if PayStatus.CANCELED = g.terminal then (st, SettlementOutcome.settled PayStatus.CANCELED)
          else (st, SettlementOutcome.settlementConflict)
      | _ =>
          match g with
          | GatewayStatus.success =>
              let reg := st.regs p.regId
              let newTicket : Option Nat :=
                match reg.ticket with
                | some t => some t
                | none => some st.nextTicket
              let bump : Nat :=
                match reg.ticket with
                | some _ => st.nextTicket
                | none => st.nextTicket + 1
              ({ payments := fun r =>
                   if r = refId then some { p with status := PayStatus.PAID }
                   else st.payments r,
                 regs := fun i =>
                   if i = p.regId then { status := RegStatus.confirmed, ticket := newTicket }
                   else st.regs i,
                 couponUses := st.couponUses + 1,
                 nextTicket := bump },
               SettlementOutcome.settled PayStatus.PAID)
          | GatewayStatus.failed =>
              ({ payments := fun r =>
                   if r = refId then some { p with status := PayStatus.FAILED }
                   else st.payments r,
                 regs := st.regs,
                 couponUses := st.couponUses,
                 nextTicket := st.nextTicket },
               SettlementOutcome.settled PayStatus.FAILED)

/-! ## ApiClient endpoint construction (`frontend/src/lib/api.ts`) -/

/-- From `api.ts` line 3: the API origin. -/
def apiBaseUrl : String := "https://api.east-guilan-ce.ir"

/-- From `ApiClient.request` (`api.ts` line 59): the full request url is the
base url followed by the endpoint string. -/
def requestUrl (endpoint : String) : String := apiBaseUrl ++ endpoint

/-- From `ApiClient.verifyMyRegistration` (`api.ts` line 454): the endpoint
string passed to `request` for a ticket verification lookup.  The source
writes the path segment `registerations` (sic). -/
def verifyMyRegistrationEndpoint (ticketId : String) : String :=
  "/api/events/registerations/verify/" ++ ticketId

/-- From `ApiClient.verifyMyRegistration` (`api.ts` lines 446-453): the
fields of the registration snapshot the lookup deserializes. -/
structure VerifyRegistrationResponse where
  event_image : String
  event_title : String
  event_type : String
  ticket_id : String
  status : String
  registered_at : String
  success_markdown : String
deriving DecidableEq, Repr

/-! ## Event availability (`Events.tsx` and `EventDetail.tsx`) -/

/-- The fields of `EventListItemSchema` (`types.ts` lines 190-209) that the
availability computations read.  Nullable fields (`capacity?: number | null`,
`registration_start_date?: string | null`, `registration_end_date?: string |
null`) are `Option`; timestamps are milliseconds since the epoch, the value
`Date.getTime()` yields. -/
structure EventItem where
  capacity : Option Int
  registration_count : Int
  registration_start_date : Option Int
  registration_end_date : Option Int
deriving DecidableEq, Repr

/-- JavaScript `Number(x)` on a `number | null` field: `Number(null) = 0`. -/
def jsNumber : Option Int → Int
  | none => 0
  | some x => x

/-- JavaScript `new Date(x).getTime()` on a nullable timestamp: a null input
coerces to the epoch (time 0). -/
def jsDateMs : Option Int → Int
  | none => 0
  | some t => t

/-- From `Events.tsx` lines 20-25: `spotsLeft` is
`Number(event.capacity) - Number(event.registration_count)`. -/
def spotsLeft (e : EventItem) : Int :=
  jsNumber e.capacity - e.registration_count

/-- From `Events.tsx` lines 26-32: the list-view availability check:
the registration end date is strictly in the future and `spotsLeft` is
strictly positive. -/
def isAvailable (now : Int) (e : EventItem) : Bool :=
  decide (jsDateMs e.registration_end_date > now) && decide (spotsLeft e > 0)

/-- From `EventDetail.tsx` line 271 (the `meta` memo):
`registrationOpen = (rs == null || nowTs >= rs) && (re == null || nowTs <= re)`. -/
def metaRegistrationOpen (now : Int) (e : EventItem) : Bool :=
  (match e.registration_start_date with
   | none => true
   | some rs => decide (now ≥ rs)) &&
  (match e.registration_end_date with
   | none => true
   | some re => decide (now ≤ re))

/-- From `EventDetail.tsx` lines 272-273: `remaining` is `Infinity` (here
`none`) when `capacity == null`, else `max 0 (capacity - registration_count)`. -/
def metaRemaining (e : EventItem) : Option Int :=
  match e.capacity with
  | none => none
  | some c => some (max 0 (c - e.registration_count))

/-- From `EventDetail.tsx` line 274: `full = !unlimited && remaining <= 0`. -/
def metaFull (e : EventItem) : Bool :=
  match metaRemaining e with
  | none => false
  | some r => decide (r ≤ 0)

/-! ## Checkout control flow (`EventDetail.tsx`) -/

/-- The fields of the loaded event that the checkout handlers read:
`event.id`, `event.price` (`price?: number | null` in `types.ts`). -/
structure EventInfo where
  id : Nat
  price : Option Int
deriving DecidableEq, Repr

/-- From `EventDetail.tsx` line 26: `basePrice = Number(event?.price ?? 0)`. -/
def basePrice (e : EventInfo) : Int := e.price.getD 0

/-- From `EventDetail.tsx` line 27: `isFree = basePrice <= 0`. -/
def isFree (e : EventInfo) : Bool := decide (basePrice e ≤ 0)

/-- The fields of `EventRegistrationSchema` (`types.ts` lines 292-295) that
the checkout handlers use. -/
structure RegistrationOut where
  id : Nat
  ticket_id : String
deriving DecidableEq, Repr

/-- The fields of `CreatePaymentOut` (`types.ts` lines 348-354) that
`handleContinueFromModal` reads.  `start_pay_url` is `none` when the server
returned no gateway session url. -/
structure PaymentOut where
  start_pay_url : Option String
  base_amount : Int
  discount_amount : Int
  amount : Int
deriving DecidableEq, Repr

/-- JavaScript falsiness of `result?.start_pay_url`: an absent url or the
empty string is falsy. -/
def jsFalsyUrl : Option String → Bool
  | none => true
  | some s => s.isEmpty

/-- The externally observable actions the checkout handlers perform, in
order: api calls, navigation and the gateway redirect
(`window.location.href = result.start_pay_url`). -/
inductive ClientAction
  | registerCall (eventId : Nat)
  | changeRegStatus (registrationId : Nat) (status : String)
  | createPaymentCall (eventId : Nat)
  | navigateSuccess (ticketId : String)
  | redirectGateway (url : String)
  | navigateAuth
  | openCouponModal
  | showError
deriving DecidableEq, Repr

/-- From `EventDetail.tsx` lines 83-109 (`handleMainCTA`): unauthenticated
users are sent to `/auth`; a free event registers immediately and navigates
to success with the returned `ticket_id` (errors toast, modelled as
`showError`); a paid event only opens the coupon modal.  `regResult` is the
outcome of the awaited `api.registerForEvent` call. -/
def handleMainCTA (isAuthenticated : Bool) (e : EventInfo)
    (regResult : Except String RegistrationOut) : List ClientAction :=
  if isAuthenticated = false then [ClientAction.navigateAuth]
  else if isFree e then
    match regResult with
    | Except.ok res =>
        [ClientAction.registerCall e.id, ClientAction.navigateSuccess res.ticket_id]
    | Except.error _ => [ClientAction.registerCall e.id, ClientAction.showError]
  else [ClientAction.openCouponModal]

/-- From `EventDetail.tsx` lines 111-209 (`handleContinueFromModal`): after
authentication, the handler (1) always registers first; (2) if the modal`s
`finalAmount === 0`, marks the registration confirmed and navigates to
success without calling `createPayment`; (3) otherwise calls
`api.createPayment` and, when the server returns no `start_pay_url` (falsy)
or a zero `amount`, navigates to success with the previously obtained
ticket; only otherwise does it redirect to the gateway url.  Errors from
either awaited call are toasted (`showError`). -/
def handleContinueFromModal (isAuthenticated : Bool) (e : EventInfo)
    (finalAmount : Option Int)
    (regResult : Except String RegistrationOut)
    (payResult : Except String PaymentOut) : List ClientAction :=
  if isAuthenticated = false then [ClientAction.navigateAuth]
  else
    match regResult with
    | Except.error _ => [ClientAction.registerCall e.id, ClientAction.showError]
    | Except.ok reg =>
        if finalAmount = some 0 then
          [ClientAction.registerCall e.id,
           ClientAction.changeRegStatus reg.id "confirmed",
           ClientAction.navigateSuccess reg.ticket_id]
        else
          match payResult with
          | Except.error _ =>
              [ClientAction.registerCall e.id, ClientAction.createPaymentCall e.id,
               ClientAction.showError]
          | Except.ok pay =>
              if jsFalsyUrl pay.start_pay_url || decide (pay.amount = 0) then
                [ClientAction.registerCall e.id, ClientAction.createPaymentCall e.id,
                 ClientAction.navigateSuccess reg.ticket_id]
              else
                [ClientAction.registerCall e.id, ClientAction.createPaymentCall e.id,
                 ClientAction.redirectGateway (pay.start_pay_url.getD "")]

/-! ## Token storage and `refreshAccessToken` (`api.ts` lines 22-44) -/

/-- The two `localStorage` slots the client uses for credentials. -/
structure TokenStore where
  access : Option String
  refresh : Option String
deriving DecidableEq, Repr

/-- `TokenSchema` (`types.ts` lines 12-15): the refresh endpoint`s body. -/
structure TokenPair where
  access_token : String
  refresh_token : String
deriving DecidableEq, Repr

/-- The outcome of the `fetch` to `/api/auth/refresh`: an `ok` response with
a token pair, or a non-ok response. -/
inductive RefreshResponse
  | ok (tokens : TokenPair)
  | httpError
deriving DecidableEq, Repr

/-- How `ApiClient.refreshAccessToken` returns to its caller: the new access
token, or one of its two thrown errors. -/
inductive RefreshResult
  | newToken (t : String)
  | noRefreshToken
  | sessionExpired
deriving DecidableEq, Repr

/-- From `ApiClient.refreshAccessToken` (`api.ts` lines 22-44): with no
stored refresh token it throws at once, leaving storage untouched; on a
non-ok response it removes both tokens, then throws the session-expired
error; on success it stores both new tokens and returns the new access
token. -/
def refreshAccessToken (st : TokenStore) (resp : RefreshResponse) :
    TokenStore × RefreshResult :=
  match st.refresh with
  | none => (st, RefreshResult.noRefreshToken)
  | some _ =>
      match resp with
      | RefreshResponse.httpError =>
          ({ access := none, refresh := none }, RefreshResult.sessionExpired)
      | RefreshResponse.ok tp =>
          ({ access := some tp.access_token, refresh := some tp.refresh_token },
           RefreshResult.newToken tp.access_token)

/-- From `ApiClient.request` (`api.ts` line 71): the refresh path is entered
only when the response status is 401 and a refresh token is stored
(`response.status === 401` and a stored `refresh_token`). -/
def entersRefreshPath (status : Nat) (st : TokenStore) : Bool :=
  status == 401 && st.refresh.isSome

/-! ## Session Guard concurrency model (`api.ts` lines 55-132)

The `request` method runs on the JavaScript event loop: between two `await`
points the code of one call runs to completion, so the 401 handler from
observing the 401 response through reading and writing `isRefreshing`
(lines 71-73 and 98-100) is one atomic step, and the points where control is
interleaved are exactly the `await`ed promises (the initial `fetch`, the
refresh, the retry `fetch`).  The model below has one state per in-flight
`request` call that hits a 401 while a refresh token is stored, plus the
shared client fields `isRefreshing` and `refreshSubscribers`.
`refreshStarts` counts the `refreshAccessToken` invocations and `retries`
counts the retry fetches each call issues; both are instrumentation, not
program state. -/

/-- The phase of one `request` call.  `fetching`: the initial fetch is
outstanding; `refreshing`: this call is the leader and its
`refreshAccessToken` is outstanding; `subscribed`: the call pushed its
callback onto `refreshSubscribers` and its returned promise is pending;
`retrying tok`: the retry fetch with token `tok` is outstanding;
`succeeded tok`: the call resolved with the retry response obtained with
`tok`; `failed`: the call`s promise settled with an error. -/
inductive Phase
  | fetching
  | refreshing
  | subscribed
  | retrying (token : Nat)
  | succeeded (token : Nat)
  | failed
deriving DecidableEq, Repr

/-- The shared `ApiClient` fields plus each call`s phase, for `n` calls.
`wasLeader i` records whether call `i` took the leader branch (`api.ts`
lines 72-97): such a call still holds the `try`/`catch` of lines 74-97, so
a failure of its retry fetch runs the `catch` (which writes
`this.isRefreshing = false`), while a follower`s retry failure only rejects
inside its subscriber callback and touches no shared state. -/
structure GuardState (n : Nat) where
  phase : Fin n → Phase
  isRefreshing : Bool
  subscribers : List (Fin n)
  refreshStarts : Nat
  retries : Fin n → Nat
  wasLeader : Fin n → Bool

/-- The starting state: every call`s initial fetch is outstanding, no
refresh is in flight, no subscribers, no call has led. -/
def startState (n : Nat) : GuardState n :=
  { phase := fun _ => Phase.fetching
    isRefreshing := false
    subscribers := []
    refreshStarts := 0
    retries := fun _ => 0
    wasLeader := fun _ => false }

/-- The promise resolutions the event loop can deliver.  `observe401 i`:
the initial fetch of call `i` resolves with a 401 and its handler runs;
`refreshSuccess i tok`: the `refreshAccessToken` of call `i` resolves with
the new token `tok`; `refreshFailure i`: it rejects; `retrySuccess i` /
`retryFailure i`: the retry fetch of call `i` resolves ok / not ok (a
second 401 is a not-ok response). -/
inductive GuardEvent (n : Nat)
  | observe401 (i : Fin n)
  | refreshSuccess (i : Fin n) (token : Nat)
  | refreshFailure (i : Fin n)
  | retrySuccess (i : Fin n)
  | retryFailure (i : Fin n)
deriving DecidableEq, Repr

/-- One atomic continuation of `request` (`api.ts` lines 71-121).  On
`observe401`: if no refresh is in flight the call becomes the leader (sets
`isRefreshing`, starts the one refresh); otherwise it pushes itself onto
`refreshSubscribers` (lines 98-121).  On `refreshSuccess` the leader clears
`isRefreshing`, broadcasts the token via `onRefreshed` — every subscriber
starts its retry fetch with that token, the list is emptied — and starts its
own retry (lines 75-87).  On `refreshFailure` the `catch` clears
`isRefreshing` and rethrows for the leader alone: the subscriber callbacks
are not invoked and the list is not cleared (lines 94-97).  Retry
resolutions settle the call`s promise: an ok response resolves it (lines
92 and 114); a not-ok retry response of the leader throws inside the `try`,
so its `catch` (lines 94-97) writes `isRefreshing := false` before
rethrowing, whereas a follower`s not-ok retry only rejects its promise
(lines 110-117).  An event whose call is not in the right phase changes
nothing. -/
def step {n : Nat} (s : GuardState n) : GuardEvent n → GuardState n
  | GuardEvent.observe401 i =>
      if s.phase i = Phase.fetching then
        if s.isRefreshing then
          { s with phase := Function.update s.phase i Phase.subscribed
                   subscribers := s.subscribers ++ [i] }
        else
          { s with phase := Function.update s.phase i Phase.refreshing
                   isRefreshing := true
                   refreshStarts := s.refreshStarts + 1
                   wasLeader := Function.update s.wasLeader i true }
      else s
  | GuardEvent.refreshSuccess i token =>
      if s.phase i = Phase.refreshing then
        { s with phase := fun j =>
                   if j = i ∨ j ∈ s.subscribers then Phase.retrying token else s.phase j
                 retries := fun j =>
                   if j = i ∨ j ∈ s.subscribers then s.retries j + 1 else s.retries j
                 isRefreshing := false
                 subscribers := [] }
      else s
  | GuardEvent.refreshFailure i =>
      if s.phase i = Phase.refreshing then
        { s with phase := Function.update s.phase i Phase.failed
                 isRefreshing := false }
      else s
  | GuardEvent.retrySuccess i =>
      match s.phase i with
      | Phase.retrying token =>
          { s with phase := Function.update s.phase i (Phase.succeeded token) }
      | _ => s
  | GuardEvent.retryFailure i =>
      match s.phase i with
      | Phase.retrying _ =>
          { s with phase := Function.update s.phase i Phase.failed
                   isRefreshing := if s.wasLeader i then false else s.isRefreshing }
      | _ => s

/-- Running a sequence of event-loop deliveries. -/
def runGuard {n : Nat} (s : GuardState n) : List (GuardEvent n) → GuardState n
  | [] => s
  | ev :: evs => runGuard (step s ev) evs

/-- A phase in which the event loop holds no outstanding promise for the
call: no delivery can change it. -/
def quiescent : Phase → Bool
  | Phase.subscribed => true
  | Phase.succeeded _ => true
  | Phase.failed => true
  | _ => false

/-- The structural invariant of the client state: the subscriber list holds
exactly the subscribed calls, once each; a call that has not yet entered a
retry has issued no retry fetch, one that is retrying or done has issued
exactly one.  Nothing relating `isRefreshing` to the refreshing phases is
invariant: a leader`s failed retry clobbers the flag (`api.ts` lines
94-97) even while a later cycle`s refresh is in flight. -/
structure GuardInv {n : Nat} (s : GuardState n) : Prop where
  nodup : s.subscribers.Nodup
  subsIff : ∀ j, j ∈ s.subscribers ↔ s.phase j = Phase.subscribed
  retriesZero : ∀ j, s.phase j = Phase.fetching ∨ s.phase j = Phase.refreshing ∨
      s.phase j = Phase.subscribed → s.retries j = 0
  retriesOne : ∀ j t, s.phase j = Phase.retrying t ∨ s.phase j = Phase.succeeded t →
      s.retries j = 1
  retriesLe : ∀ j, s.retries j ≤ 1

/-- No call is in a retry-related phase (no token has circulated). -/
def NoTokenPhases {n : Nat} (s : GuardState n) : Prop :=
  ∀ j t, s.phase j ≠ Phase.retrying t ∧ s.phase j ≠ Phase.succeeded t

/-- No refresh is outstanding and every token a call carries is `t0`: the
single credential the one refresh produced. -/
def UniformToken {n : Nat} (s : GuardState n) (t0 : Nat) : Prop :=
  (∀ j, s.phase j ≠ Phase.refreshing)
  ∧ ∀ j t, s.phase j = Phase.retrying t ∨ s.phase j = Phase.succeeded t → t = t0

/-- State shape after every concurrent call has observed its 401: no initial
fetch is outstanding, exactly one refresh has been started, at most one
call is refreshing, and either no token has circulated yet or all
circulating tokens are one value. -/
def PostObs {n : Nat} (s : GuardState n) : Prop :=
  (∀ j, s.phase j ≠ Phase.fetching)
  ∧ s.refreshStarts = 1
  ∧ (∀ j k, s.phase j = Phase.refreshing → s.phase k = Phase.refreshing → j = k)
  ∧ (NoTokenPhases s ∨ ∃ t0, UniformToken s t0)

/-- Two concurrent calls both observe a 401, call 0 leads, then the refresh
fails: the schedule exercising `api.ts` lines 94-97. -/
def stuckSchedule : List (GuardEvent 2) :=
  [GuardEvent.observe401 0, GuardEvent.observe401 1, GuardEvent.refreshFailure 0]

/-- An event with `capacity: null` (unlimited), an open registration window
(now = 50, end = 100, no start bound) and 5 existing registrations. -/
def unlimitedEvent : EventItem :=
  { capacity := none
    registration_count := 5
    registration_start_date := none
    registration_end_date := some 100 }

/-! ## Theorems -/

/-- C2: the settle operation is idempotent: for every `ref_id` and terminal
gateway status, invoking `settle(ref_id, status, amount)` twice yields the
same Payment and Registration state (indeed the same outcome too) after the
second call as after the first, with no duplicate side effects: in
particular no second ticket is issued (`nextTicket` unchanged) and the
coupon usage counter is not incremented twice. -/
theorem settle_idempotent (st : SettleState) (refId : String) (g : GatewayStatus)
    (amount : Int) :
    settle (settle st refId g amount).1 refId g amount = settle st refId g amount
    ∧ (settle (settle st refId g amount).1 refId g amount).1.couponUses
        = (settle st refId g amount).1.couponUses
    ∧ (settle (settle st refId g amount).1 refId g amount).1.nextTicket
        = (settle st refId g amount).1.nextTicket
    ∧ (settle (settle st refId g amount).1 refId g amount).1.regs
        = (settle st refId g amount).1.regs := by
  have main : settle (settle st refId g amount).1 refId g amount
      = settle st refId g amount := by
    cases hp : st.payments refId with
    | none =>
        simp [settle, hp]
    | some p =>
        obtain ⟨regId, status, amt⟩ := p
        cases status <;> cases g <;>
          simp [settle, hp, GatewayStatus.terminal]
  exact ⟨main, by rw [main], by rw [main], by rw [main]⟩

/-- C9 counterexample: the client`s verification lookup is not issued
against the literal path `/events/registrations/verify/...` of the spec: the
source spells the segment `registerations`. -/
theorem verify_route_spelling_counterexample :
    requestUrl (verifyMyRegistrationEndpoint "t-1")
      ≠ "https://api.east-guilan-ce.ir/api/events/registrations/verify/t-1" := by
  decide

/-- C9 (amended): for every `ticket_id`, the ticket verification lookup is
issued against the API base followed by the `/api` prefix and the path
segment `events/registerations/verify/` before the ticket id — the
source`s spelling `registerations`, not the spec`s `registrations`.  The
deserialized snapshot type (`VerifyRegistrationResponse`) carries the
`event_title`, `status` and `registered_at` fields the claim names. -/
theorem verify_route_shape (ticketId : String) :
    verifyMyRegistrationEndpoint ticketId
        = "/api/events/registerations/verify/" ++ ticketId
    ∧ requestUrl (verifyMyRegistrationEndpoint ticketId)
        = apiBaseUrl ++ verifyMyRegistrationEndpoint ticketId :=
  ⟨rfl, rfl⟩

/-- C8: divergence witness.  For `unlimitedEvent` (capacity null, window
open at time 50) the event-detail eligibility predicate correctly reports
the event as registrable (`metaFull = false`, `metaRegistrationOpen =
true`), but the event-list availability check computes `Number(null) -
registration_count = -5` remaining spots and reports it unavailable. -/
theorem null_capacity_divergence :
    metaRegistrationOpen 50 unlimitedEvent = true
    ∧ metaFull unlimitedEvent = false
    ∧ spotsLeft unlimitedEvent = -5
    ∧ isAvailable 50 unlimitedEvent = false := by
  decide

/-- C10: when the refresh request fails with a non-ok response,
`refreshAccessToken` removes both tokens from storage before surfacing the
session-expired error, so the 401 refresh path (`status === 401 &&
refresh_token`) can no longer be entered; on success it stores both new
tokens and returns the new access token. -/
theorem refresh_failure_clears_session (st : TokenStore) (r : String) (tp : TokenPair)
    (h : st.refresh = some r) :
    (refreshAccessToken st RefreshResponse.httpError).1
        = { access := none, refresh := none }
    ∧ (refreshAccessToken st RefreshResponse.httpError).2 = RefreshResult.sessionExpired
    ∧ (∀ status, entersRefreshPath status
        (refreshAccessToken st RefreshResponse.httpError).1 = false)
    ∧ (refreshAccessToken st (RefreshResponse.ok tp)).1
        = { access := some tp.access_token, refresh := some tp.refresh_token }
    ∧ (refreshAccessToken st (RefreshResponse.ok tp)).2
        = RefreshResult.newToken tp.access_token := by
  refine ⟨?_, ?_, ?_, ?_, ?_⟩ <;>
    simp [refreshAccessToken, h, entersRefreshPath]

/-- C10 witness: the theorem applied to a concrete store holding both
tokens, a concrete refresh response pair, and the stored-refresh-token
hypothesis discharged by evaluation. -/
theorem refresh_failure_clears_session_witness :
    (TokenStore.mk (some "acc") (some "ref")).refresh = some "ref"
    ∧ ((refreshAccessToken (TokenStore.mk (some "acc") (some "ref"))
          RefreshResponse.httpError).1 = { access := none, refresh := none }
       ∧ (refreshAccessToken (TokenStore.mk (some "acc") (some "ref"))
            RefreshResponse.httpError).2 = RefreshResult.sessionExpired
       ∧ (∀ status, entersRefreshPath status
            (refreshAccessToken (TokenStore.mk (some "acc") (some "ref"))
              RefreshResponse.httpError).1 = false)
       ∧ (refreshAccessToken (TokenStore.mk (some "acc") (some "ref"))
            (RefreshResponse.ok (TokenPair.mk "na" "nr"))).1
           = { access := some "na", refresh := some "nr" }
       ∧ (refreshAccessToken (TokenStore.mk (some "acc") (some "ref"))
            (RefreshResponse.ok (TokenPair.mk "na" "nr"))).2
           = RefreshResult.newToken "na") :=
  ⟨rfl, refresh_failure_clears_session (TokenStore.mk (some "acc") (some "ref"))
    "ref" (TokenPair.mk "na" "nr") rfl⟩

/-- C6: when `createPayment` reports a zero final amount or no gateway
session url, `handleContinueFromModal` treats the outcome as a successful
free completion: it performs no gateway redirect and navigates to the
registration-success state with the ticket of the previously created
registration. -/
theorem zero_amount_payment_is_success (e : EventInfo) (fa : Option Int)
    (reg : RegistrationOut) (pay : PaymentOut)
    (hfa : fa ≠ some 0)
    (hzero : jsFalsyUrl pay.start_pay_url = true ∨ pay.amount = 0) :
    handleContinueFromModal true e fa (Except.ok reg) (Except.ok pay)
      = [ClientAction.registerCall e.id, ClientAction.createPaymentCall e.id,
         ClientAction.navigateSuccess reg.ticket_id]
    ∧ ∀ u, ClientAction.redirectGateway u
        ∉ handleContinueFromModal true e fa (Except.ok reg) (Except.ok pay) := by
  have hcond : (jsFalsyUrl pay.start_pay_url || decide (pay.amount = 0)) = true := by
    rcases hzero with h | h <;> simp [h]
  constructor
  · simp [handleContinueFromModal, hfa, hcond]
  · intro u
    simp [handleContinueFromModal, hfa, hcond]

/-- C6 witness: a 1000-unit event fully discounted at the server: the modal
amount is unknown (`none`), `createPayment` returns amount 0 and no session
url; the hypotheses are discharged by evaluation. -/
theorem zero_amount_payment_is_success_witness :
    ((none : Option Int) ≠ some 0)
    ∧ (jsFalsyUrl (PaymentOut.mk none 1000 1000 0).start_pay_url = true
        ∨ (PaymentOut.mk none 1000 1000 0).amount = 0)
    ∧ (handleContinueFromModal true (EventInfo.mk 7 (some 1000)) none
          (Except.ok (RegistrationOut.mk 3 "tkt"))
          (Except.ok (PaymentOut.mk none 1000 1000 0))
        = [ClientAction.registerCall 7, ClientAction.createPaymentCall 7,
           ClientAction.navigateSuccess "tkt"]
       ∧ ∀ u, ClientAction.redirectGateway u
          ∉ handleContinueFromModal true (EventInfo.mk 7 (some 1000)) none
              (Except.ok (RegistrationOut.mk 3 "tkt"))
              (Except.ok (PaymentOut.mk none 1000 1000 0))) :=
  ⟨by decide, by decide,
    zero_amount_payment_is_success (EventInfo.mk 7 (some 1000)) none
      (RegistrationOut.mk 3 "tkt") (PaymentOut.mk none 1000 1000 0)
      (by decide) (by decide)⟩

/-- C7: the checkout control flow.  For a free event `handleMainCTA` issues
only the register call (never `createPayment`) and navigates to success
with the returned `ticket_id`; in `handleContinueFromModal` the register
call always precedes any `createPayment` call; and the redirect to the
gateway session url happens only when `createPayment` succeeded with a
nonzero amount (and a non-falsy session url). -/
theorem checkout_flow_order (e : EventInfo) (regResult : Except String RegistrationOut)
    (fa : Option Int) (payResult : Except String PaymentOut) :
    (∀ reg, isFree e = true → regResult = Except.ok reg →
        handleMainCTA true e regResult
          = [ClientAction.registerCall e.id, ClientAction.navigateSuccess reg.ticket_id]
        ∧ ∀ i, ClientAction.createPaymentCall i ∉ handleMainCTA true e regResult)
    ∧ (ClientAction.createPaymentCall e.id
          ∈ handleContinueFromModal true e fa regResult payResult →
        (handleContinueFromModal true e fa regResult payResult).take 2
          = [ClientAction.registerCall e.id, ClientAction.createPaymentCall e.id])
    ∧ (∀ u, ClientAction.redirectGateway u
          ∈ handleContinueFromModal true e fa regResult payResult →
        ∃ pay, payResult = Except.ok pay ∧ pay.amount ≠ 0
          ∧ jsFalsyUrl pay.start_pay_url = false ∧ pay.start_pay_url = some u) := by
  refine ⟨?_, ?_, ?_⟩
  · intro reg hfree hreg
    subst hreg
    exact ⟨by simp [handleMainCTA, hfree], fun i => by simp [handleMainCTA, hfree]⟩
  · cases regResult with
    | error msg => simp [handleContinueFromModal]
    | ok reg =>
        by_cases hfa : fa = some 0
        · simp [handleContinueFromModal, hfa]
        · cases payResult with
          | error m => simp [handleContinueFromModal, hfa]
          | ok pay =>
              by_cases hz : (jsFalsyUrl pay.start_pay_url || decide (pay.amount = 0)) = true
              · simp [handleContinueFromModal, hfa, hz]
              · simp [handleContinueFromModal, hfa, hz]
  · intro u hu
    cases regResult with
    | error msg => simp [handleContinueFromModal] at hu
    | ok reg =>
        by_cases hfa : fa = some 0
        · simp [handleContinueFromModal, hfa] at hu
        · cases payResult with
          | error m => simp [handleContinueFromModal, hfa] at hu
          | ok pay =>
              by_cases hz : (jsFalsyUrl pay.start_pay_url || decide (pay.amount = 0)) = true
              · simp [handleContinueFromModal, hfa, hz] at hu
              · simp only [handleContinueFromModal, hfa, hz] at hu
                have hparts : jsFalsyUrl pay.start_pay_url = false ∧ pay.amount ≠ 0 := by
                  constructor
                  · cases hjs : jsFalsyUrl pay.start_pay_url
                    · rfl
                    · exact absurd (by simp [hjs]) hz
                  · intro h0
                    exact hz (by simp [h0])
                cases hurl : pay.start_pay_url with
                | none => rw [hurl] at hparts; simp [jsFalsyUrl] at hparts
                | some s =>
                    refine ⟨pay, rfl, hparts.2, hparts.1, ?_⟩
                    rw [hurl]
                    simp [hurl] at hu
                    simp [hu]

/-- C1 generalized admission lemma (modelled from the spec, section 4.2):
from any store whose registered users are disjoint from the distinct
incoming attempts and whose count is within capacity, a batch of attempts
admits exactly `min (number of attempts) (free seats)` users, every other
attempt fails with `CapacityExceededError`, and the final count never
exceeds capacity. -/
theorem runAdmissions_spec (cap : Nat) (users : List Nat) :
    ∀ s : AdmissionState, users.Nodup → (∀ u ∈ users, u ∉ s.registered) →
      s.registered.length ≤ cap →
      ((runAdmissions (some cap) true s users).2.countP isAdmit
          = min users.length (cap - s.registered.length))
      ∧ ((runAdmissions (some cap) true s users).2.countP isCapacityFail
          = users.length - (cap - s.registered.length))
      ∧ (∀ o ∈ (runAdmissions (some cap) true s users).2,
          o = Except.ok () ∨ o = Except.error AdmissionError.capacityExceeded)
      ∧ (runAdmissions (some cap) true s users).1.registered.length
          = min cap (s.registered.length + users.length) := by
  induction users with
  | nil =>
      intro s _ _ hle
      simp [runAdmissions]
      omega
  | cons u us ih =>
      intro s hnd hfresh hle
      have hu : u ∉ s.registered := hfresh u (List.mem_cons_self u us)
      have hnd' : us.Nodup := (List.nodup_cons.mp hnd).2
      have hun : u ∉ us := (List.nodup_cons.mp hnd).1
      by_cases hlt : s.registered.length < cap
      · have hreg : register (some cap) true s u
            = ({ registered := s.registered ++ [u] }, Except.ok ()) := by
          simp [register, hu, hlt]
        have hfresh' : ∀ v ∈ us, v ∉ (s.registered ++ [u]) := by
          intro v hv
          simp only [List.mem_append, List.mem_singleton]
          rintro (hin | rfl)
          · exact hfresh v (List.mem_cons_of_mem u hv) hin
          · exact hun hv
        have hle' : (s.registered ++ [u]).length ≤ cap := by
          simp [List.length_append]; omega
        obtain ⟨c1, c2, c3, c4⟩ :=
          ih { registered := s.registered ++ [u] } hnd' hfresh' hle'
        refine ⟨?_, ?_, ?_, ?_⟩
        · simp [runAdmissions, hreg, List.countP_cons, isAdmit, c1,
            List.length_append]
          omega
        · simp [runAdmissions, hreg, List.countP_cons, isCapacityFail, c2,
            List.length_append]
          omega
        · intro o ho
          simp only [runAdmissions, hreg, List.mem_cons] at ho
          rcases ho with rfl | ho
          · exact Or.inl rfl
          · exact c3 o ho
        · simp only [runAdmissions, hreg] at c4 ⊢
          simp [List.length_append] at c4 ⊢
          omega
      · have hcap : ¬ s.registered.length < cap := hlt
        have hreg : register (some cap) true s u
            = (s, Except.error AdmissionError.capacityExceeded) := by
          simp [register, hu, hcap]
        obtain ⟨c1, c2, c3, c4⟩ := ih s hnd'
          (fun v hv => hfresh v (List.mem_cons_of_mem u hv)) hle
        refine ⟨?_, ?_, ?_, ?_⟩
        · simp [runAdmissions, hreg, List.countP_cons, isAdmit, c1]
          omega
        · simp [runAdmissions, hreg, List.countP_cons, isCapacityFail, c2]
          omega
        · intro o ho
          simp only [runAdmissions, hreg, List.mem_cons] at ho
          rcases ho with rfl | ho
          · exact Or.inr rfl
          · exact c3 o ho
        · simp only [runAdmissions, hreg] at c4 ⊢
          omega

/-- C1 (modelled from the spec): capacity invariant.  For an event with
capacity `N`, if `M > N` admission attempts by distinct users commit their
atomic compare-and-increment steps in any order, exactly `N` succeed and
the remaining `M - N` fail with `CapacityExceededError`; every failing
attempt fails with exactly that error. -/
theorem admission_capacity_invariant (N : Nat) (users : List Nat)
    (hnd : users.Nodup) (hM : N < users.length) :
    ((runAdmissions (some N) true { registered := [] } users).2.countP isAdmit = N)
    ∧ ((runAdmissions (some N) true { registered := [] } users).2.countP
        isCapacityFail = users.length - N)
    ∧ (∀ o ∈ (runAdmissions (some N) true { registered := [] } users).2,
        isAdmit o = false → o = Except.error AdmissionError.capacityExceeded) := by
  obtain ⟨c1, c2, c3, _⟩ := runAdmissions_spec N users { registered := [] }
    hnd (by simp) (by simp)
  refine ⟨?_, ?_, ?_⟩
  · rw [c1]; simp; omega
  · rw [c2]; simp
  · intro o ho hno
    rcases c3 o ho with rfl | rfl
    · simp [isAdmit] at hno
    · rfl

/-- C1 witness: capacity 1, three distinct concurrent users: the theorem
applied to the concrete batch, hypotheses discharged by evaluation. -/
theorem admission_capacity_invariant_witness :
    ([10, 20, 30] : List Nat).Nodup ∧ 1 < ([10, 20, 30] : List Nat).length
    ∧ (((runAdmissions (some 1) true { registered := [] } [10, 20, 30]).2.countP
          isAdmit = 1)
       ∧ ((runAdmissions (some 1) true { registered := [] } [10, 20, 30]).2.countP
            isCapacityFail = 3 - 1)
       ∧ (∀ o ∈ (runAdmissions (some 1) true { registered := [] } [10, 20, 30]).2,
            isAdmit o = false → o = Except.error AdmissionError.capacityExceeded)) :=
  ⟨by decide, by decide, admission_capacity_invariant 1 [10, 20, 30] (by decide) (by decide)⟩

/-- Equation: a 401 handler running while a refresh is in flight subscribes. -/
theorem step_observe_subscribe {n : Nat} {s : GuardState n} {i : Fin n}
    (hp : s.phase i = Phase.fetching) (hr : s.isRefreshing = true) :
    step s (GuardEvent.observe401 i)
      = { s with phase := Function.update s.phase i Phase.subscribed
                 subscribers := s.subscribers ++ [i] } := by
  simp [step, hp, hr]

/-- Equation: a 401 handler running with no refresh in flight leads. -/
theorem step_observe_lead {n : Nat} {s : GuardState n} {i : Fin n}
    (hp : s.phase i = Phase.fetching) (hr : s.isRefreshing = false) :
    step s (GuardEvent.observe401 i)
      = { s with phase := Function.update s.phase i Phase.refreshing
                 isRefreshing := true
                 refreshStarts := s.refreshStarts + 1
                 wasLeader := Function.update s.wasLeader i true } := by
  simp [step, hp, hr]

/-- Equation: a 401 delivery for a call that is not fetching changes nothing. -/
theorem step_observe_noop {n : Nat} {s : GuardState n} {i : Fin n}
    (hp : s.phase i ≠ Phase.fetching) :
    step s (GuardEvent.observe401 i) = s := by
  simp [step, hp]

/-- Equation: the leader`s refresh resolving broadcasts the token. -/
theorem step_refreshSuccess {n : Nat} {s : GuardState n} {i : Fin n} {tok : Nat}
    (hp : s.phase i = Phase.refreshing) :
    step s (GuardEvent.refreshSuccess i tok)
      = { s with phase := fun j =>
                   if j = i ∨ j ∈ s.subscribers then Phase.retrying tok else s.phase j
                 retries := fun j =>
                   if j = i ∨ j ∈ s.subscribers then s.retries j + 1 else s.retries j
                 isRefreshing := false
                 subscribers := [] } := by
  simp [step, hp]

/-- Equation: a refresh resolution for a call that is not refreshing changes
nothing. -/
theorem step_refreshSuccess_noop {n : Nat} {s : GuardState n} {i : Fin n} {tok : Nat}
    (hp : s.phase i ≠ Phase.refreshing) :
    step s (GuardEvent.refreshSuccess i tok) = s := by
  simp [step, hp]

/-- Equation: the leader`s refresh rejecting fails the leader alone; the
subscriber list is left as it was. -/
theorem step_refreshFailure {n : Nat} {s : GuardState n} {i : Fin n}
    (hp : s.phase i = Phase.refreshing) :
    step s (GuardEvent.refreshFailure i)
      = { s with phase := Function.update s.phase i Phase.failed
                 isRefreshing := false } := by
  simp [step, hp]

/-- Equation: a refresh rejection for a call that is not refreshing changes
nothing. -/
theorem step_refreshFailure_noop {n : Nat} {s : GuardState n} {i : Fin n}
    (hp : s.phase i ≠ Phase.refreshing) :
    step s (GuardEvent.refreshFailure i) = s := by
  simp [step, hp]

/-- Equation: a retry fetch resolving ok settles the call. -/
theorem step_retrySuccess {n : Nat} {s : GuardState n} {i : Fin n} {tok : Nat}
    (hp : s.phase i = Phase.retrying tok) :
    step s (GuardEvent.retrySuccess i)
      = { s with phase := Function.update s.phase i (Phase.succeeded tok) } := by
  simp [step, hp]

/-- Equation: a retry resolution for a call that is not retrying changes
nothing. -/
theorem step_retrySuccess_noop {n : Nat} {s : GuardState n} {i : Fin n}
    (hp : ∀ t, s.phase i ≠ Phase.retrying t) :
    step s (GuardEvent.retrySuccess i) = s := by
  cases hq : s.phase i
  case retrying t => exact absurd hq (hp t)
  all_goals simp [step, hq]

/-- Equation: a retry fetch resolving not-ok fails the call; when the call
was the leader of its cycle, its `catch` also clears `isRefreshing`. -/
theorem step_retryFailure {n : Nat} {s : GuardState n} {i : Fin n} {tok : Nat}
    (hp : s.phase i = Phase.retrying tok) :
    step s (GuardEvent.retryFailure i)
      = { s with phase := Function.update s.phase i Phase.failed
                 isRefreshing := if s.wasLeader i then false else s.isRefreshing } := by
  simp [step, hp]

/-- Equation: a retry rejection for a call that is not retrying changes
nothing. -/
theorem step_retryFailure_noop {n : Nat} {s : GuardState n} {i : Fin n}
    (hp : ∀ t, s.phase i ≠ Phase.retrying t) :
    step s (GuardEvent.retryFailure i) = s := by
  cases hq : s.phase i
  case retrying t => exact absurd hq (hp t)
  all_goals simp [step, hq]

/-- Running a concatenated schedule runs the pieces in order. -/
theorem runGuard_append {n : Nat} (a b : List (GuardEvent n)) :
    ∀ s : GuardState n, runGuard s (a ++ b) = runGuard (runGuard s a) b := by
  induction a with
  | nil => intro s; rfl
  | cons e a ih => intro s; simp only [List.cons_append, runGuard]; exact ih (step s e)

/-- When every call is quiescent, no delivery changes the state. -/
theorem step_quiescent {n : Nat} {s : GuardState n}
    (h : ∀ j, quiescent (s.phase j) = true) (ev : GuardEvent n) :
    step s ev = s := by
  cases ev with
  | observe401 i =>
      refine step_observe_noop ?_
      intro hf; have := h i; rw [hf] at this; simp [quiescent] at this
  | refreshSuccess i tok =>
      refine step_refreshSuccess_noop ?_
      intro hf; have := h i; rw [hf] at this; simp [quiescent] at this
  | refreshFailure i =>
      refine step_refreshFailure_noop ?_
      intro hf; have := h i; rw [hf] at this; simp [quiescent] at this
  | retrySuccess i =>
      refine step_retrySuccess_noop ?_
      intro t hf; have := h i; rw [hf] at this; simp [quiescent] at this
  | retryFailure i =>
      refine step_retryFailure_noop ?_
      intro t hf; have := h i; rw [hf] at this; simp [quiescent] at this

/-- When every call is quiescent, no schedule changes the state. -/
theorem runGuard_quiescent {n : Nat} (evs : List (GuardEvent n)) :
    ∀ s : GuardState n, (∀ j, quiescent (s.phase j) = true) → runGuard s evs = s := by
  induction evs with
  | nil => intro s _; rfl
  | cons e evs ih =>
      intro s h
      simp only [runGuard, step_quiescent h e]
      exact ih s h

/-- C4: divergence witness.  In the two-call schedule where call 0 leads and
the refresh fails, the leader surfaces the error (`failed`) but the follower
that subscribed during the refresh stays `subscribed` forever: its callback
is never invoked, so its promise never settles with the session-expired
error the spec requires, under every continuation of the schedule. -/
theorem refresh_failure_leaves_follower_pending (ext : List (GuardEvent 2)) :
    (runGuard (startState 2) stuckSchedule).phase 0 = Phase.failed
    ∧ (runGuard (startState 2) stuckSchedule).phase 1 = Phase.subscribed
    ∧ (runGuard (startState 2) (stuckSchedule ++ ext)).phase 1 = Phase.subscribed
    ∧ (runGuard (startState 2) (stuckSchedule ++ ext)).phase 1 ≠ Phase.failed := by
  have hquiet : ∀ j : Fin 2,
      quiescent ((runGuard (startState 2) stuckSchedule).phase j) = true := by
    decide
  have hext : runGuard (startState 2) (stuckSchedule ++ ext)
      = runGuard (startState 2) stuckSchedule := by
    rw [runGuard_append]
    exact runGuard_quiescent ext _ hquiet
  refine ⟨by decide, by decide, ?_, ?_⟩
  · rw [hext]; decide
  · rw [hext]; decide

/-- The starting state satisfies the structural invariant. -/
theorem guardInv_start (n : Nat) : GuardInv (startState n) := by
  refine ⟨?_, ?_, ?_, ?_, ?_⟩ <;> simp [startState]

/-- Every event-loop delivery preserves the structural invariant. -/
theorem guardInv_step {n : Nat} {s : GuardState n} (h : GuardInv s) (ev : GuardEvent n) :
    GuardInv (step s ev) := by
  cases ev with
  | observe401 i =>
      by_cases hp : s.phase i = Phase.fetching
      · have hinot : i ∉ s.subscribers := fun hin => by
          have hsub := (h.subsIff i).mp hin
          rw [hp] at hsub
          exact Phase.noConfusion hsub
        by_cases hr : s.isRefreshing = true
        · rw [step_observe_subscribe hp hr]
          refine ⟨?_, ?_, ?_, ?_, h.retriesLe⟩
          · refine List.nodup_append.mpr ⟨h.nodup, List.nodup_singleton i, ?_⟩
            intro a ha hai
            rw [List.mem_singleton] at hai
            subst hai
            exact hinot ha
          · intro j
            by_cases hji : j = i
            · subst hji
              simp [Function.update_apply, hinot]
            · simp [Function.update_apply, hji, h.subsIff j]
          · intro j hj
            by_cases hji : j = i
            · subst hji
              exact h.retriesZero j (Or.inl hp)
            · simp only [Function.update_noteq hji] at hj
              exact h.retriesZero j hj
          · intro j t hj
            by_cases hji : j = i
            · subst hji
              simp only [Function.update_same] at hj
              rcases hj with hj | hj <;> exact absurd hj (by simp)
            · simp only [Function.update_noteq hji] at hj
              exact h.retriesOne j t hj
        · have hrf : s.isRefreshing = false := by
            cases hb : s.isRefreshing
            · rfl
            · exact absurd hb hr
          rw [step_observe_lead hp hrf]
          refine ⟨h.nodup, ?_, ?_, ?_, h.retriesLe⟩
          · intro j
            by_cases hji : j = i
            · subst hji
              simp [Function.update_apply, hinot]
            · simp [Function.update_apply, hji, h.subsIff j]
          · intro j hj
            by_cases hji : j = i
            · subst hji
              exact h.retriesZero j (Or.inl hp)
            · simp only [Function.update_noteq hji] at hj
              exact h.retriesZero j hj
          · intro j t hj
            by_cases hji : j = i
            · subst hji
              simp only [Function.update_same] at hj
              rcases hj with hj | hj <;> exact absurd hj (by simp)
            · simp only [Function.update_noteq hji] at hj
              exact h.retriesOne j t hj
      · rw [step_observe_noop hp]; exact h
  | refreshSuccess i tok =>
      by_cases hp : s.phase i = Phase.refreshing
      · rw [step_refreshSuccess hp]
        have hcond0 : ∀ j, (j = i ∨ j ∈ s.subscribers) → s.retries j = 0 := by
          intro j hj
          rcases hj with rfl | hj
          · exact h.retriesZero j (Or.inr (Or.inl hp))
          · exact h.retriesZero j (Or.inr (Or.inr ((h.subsIff j).mp hj)))
        refine ⟨List.nodup_nil, ?_, ?_, ?_, ?_⟩
        · intro j
          simp only [List.not_mem_nil, false_iff]
          by_cases hc : j = i ∨ j ∈ s.subscribers
          · simp only [hc, if_pos]
            simp
          · simp only [hc, if_neg, if_false]
            intro hsub
            exact hc (Or.inr ((h.subsIff j).mpr hsub))
        · intro j hj
          dsimp only at hj ⊢
          by_cases hc : j = i ∨ j ∈ s.subscribers
          · rw [if_pos hc] at hj
            rcases hj with hj | hj | hj <;> exact absurd hj (by simp)
          · rw [if_neg hc] at hj ⊢
            exact h.retriesZero j hj
        · intro j t hj
          dsimp only at hj ⊢
          by_cases hc : j = i ∨ j ∈ s.subscribers
          · rw [if_pos hc]
            rw [hcond0 j hc]
          · rw [if_neg hc] at hj ⊢
            exact h.retriesOne j t hj
        · intro j
          dsimp only
          by_cases hc : j = i ∨ j ∈ s.subscribers
          · rw [if_pos hc, hcond0 j hc]
          · rw [if_neg hc]
            exact h.retriesLe j
      · rw [step_refreshSuccess_noop hp]; exact h
  | refreshFailure i =>
      by_cases hp : s.phase i = Phase.refreshing
      · rw [step_refreshFailure hp]
        have hinot : i ∉ s.subscribers := fun hin => by
          have hsub := (h.subsIff i).mp hin
          rw [hp] at hsub
          exact Phase.noConfusion hsub
        refine ⟨h.nodup, ?_, ?_, ?_, h.retriesLe⟩
        · intro j
          by_cases hji : j = i
          · subst hji
            simp [Function.update_apply, hinot]
          · simp [Function.update_apply, hji, h.subsIff j]
        · intro j hj
          by_cases hji : j = i
          · subst hji
            simp only [Function.update_same] at hj
            rcases hj with hj | hj | hj <;> exact absurd hj (by simp)
          · simp only [Function.update_noteq hji] at hj
            exact h.retriesZero j hj
        · intro j t hj
          by_cases hji : j = i
          · subst hji
            simp only [Function.update_same] at hj
            rcases hj with hj | hj <;> exact absurd hj (by simp)
          · simp only [Function.update_noteq hji] at hj
            exact h.retriesOne j t hj
      · rw [step_refreshFailure_noop hp]; exact h
  | retrySuccess i =>
      by_cases hp : ∃ t, s.phase i = Phase.retrying t
      · obtain ⟨t, hp⟩ := hp
        rw [step_retrySuccess hp]
        have hinot : i ∉ s.subscribers := fun hin => by
          have hsub := (h.subsIff i).mp hin
          rw [hp] at hsub
          exact Phase.noConfusion hsub
        refine ⟨h.nodup, ?_, ?_, ?_, h.retriesLe⟩
        · intro j
          by_cases hji : j = i
          · subst hji
            simp [Function.update_apply, hinot]
          · simp [Function.update_apply, hji, h.subsIff j]
        · intro j hj
          by_cases hji : j = i
          · subst hji
            simp only [Function.update_same] at hj
            rcases hj with hj | hj | hj <;> exact absurd hj (by simp)
          · simp only [Function.update_noteq hji] at hj
            exact h.retriesZero j hj
        · intro j u hj
          by_cases hji : j = i
          · subst hji
            simp only [Function.update_same] at hj
            have hut : u = t := by
              rcases hj with hj | hj
              · exact absurd hj (by simp)
              · exact Phase.succeeded.inj hj.symm
            subst hut
            exact h.retriesOne j u (Or.inl hp)
          · simp only [Function.update_noteq hji] at hj
            exact h.retriesOne j u hj
      · rw [step_retrySuccess_noop (fun t ht => hp ⟨t, ht⟩)]; exact h
  | retryFailure i =>
      by_cases hp : ∃ t, s.phase i = Phase.retrying t
      · obtain ⟨t, hp⟩ := hp
        rw [step_retryFailure hp]
        have hinot : i ∉ s.subscribers := fun hin => by
          have hsub := (h.subsIff i).mp hin
          rw [hp] at hsub
          exact Phase.noConfusion hsub
        refine ⟨h.nodup, ?_, ?_, ?_, h.retriesLe⟩
        · intro j
          by_cases hji : j = i
          · subst hji
            simp [Function.update_apply, hinot]
          · simp [Function.update_apply, hji, h.subsIff j]
        · intro j hj
          by_cases hji : j = i
          · subst hji
            simp only [Function.update_same] at hj
            rcases hj with hj | hj | hj <;> exact absurd hj (by simp)
          · simp only [Function.update_noteq hji] at hj
            exact h.retriesZero j hj
        · intro j u hj
          by_cases hji : j = i
          · subst hji
            simp only [Function.update_same] at hj
            rcases hj with hj | hj <;> exact absurd hj (by simp)
          · simp only [Function.update_noteq hji] at hj
            exact h.retriesOne j u hj
      · rw [step_retryFailure_noop (fun t ht => hp ⟨t, ht⟩)]; exact h

/-- Every state a schedule reaches from an invariant state is invariant. -/
theorem guardInv_run {n : Nat} (evs : List (GuardEvent n)) :
    ∀ s : GuardState n, GuardInv s → GuardInv (runGuard s evs) := by
  induction evs with
  | nil => intro s h; exact h
  | cons e evs ih => intro s h; exact ih (step s e) (guardInv_step h e)

/-- Running 401 observations while a refresh is in flight keeps the refresh
in flight, starts no further refresh, moves observed calls from `fetching`
to `subscribed` and leaves every other call alone. -/
theorem runGuard_observes {n : Nat} (obs : List (GuardEvent n)) :
    ∀ s : GuardState n, (∀ e ∈ obs, ∃ j, e = GuardEvent.observe401 j) →
      s.isRefreshing = true →
      (runGuard s obs).isRefreshing = true
      ∧ (runGuard s obs).refreshStarts = s.refreshStarts
      ∧ (∀ j, (runGuard s obs).phase j = s.phase j
            ∨ (s.phase j = Phase.fetching ∧ (runGuard s obs).phase j = Phase.subscribed))
      ∧ (∀ j, GuardEvent.observe401 j ∈ obs → (runGuard s obs).phase j ≠ Phase.fetching) := by
  induction obs with
  | nil =>
      intro s _ hr
      exact ⟨hr, rfl, fun j => Or.inl rfl, by simp⟩
  | cons e evs ih =>
      intro s hobs hr
      obtain ⟨i, rfl⟩ := hobs e (List.mem_cons_self e evs)
      have hobs' : ∀ x ∈ evs, ∃ j, x = GuardEvent.observe401 j :=
        fun x hx => hobs x (List.mem_cons_of_mem _ hx)
      by_cases hp : s.phase i = Phase.fetching
      · have hs1 := step_observe_subscribe hp hr
        have hrun : runGuard s (GuardEvent.observe401 i :: evs)
            = runGuard (step s (GuardEvent.observe401 i)) evs := rfl
        obtain ⟨r1, r2, r3, r4⟩ :=
          ih (step s (GuardEvent.observe401 i)) hobs' (by rw [hs1]; exact hr)
        have hphase1 : ∀ j, (step s (GuardEvent.observe401 i)).phase j
            = if j = i then Phase.subscribed else s.phase j := by
          intro j
          rw [hs1]
          dsimp only
          rw [Function.update_apply]
        have hdisj : ∀ j, (runGuard s (GuardEvent.observe401 i :: evs)).phase j = s.phase j
            ∨ (s.phase j = Phase.fetching
               ∧ (runGuard s (GuardEvent.observe401 i :: evs)).phase j = Phase.subscribed) := by
          intro j
          rw [hrun]
          rcases r3 j with h3 | h3
          · rw [hphase1 j] at h3
            by_cases hji : j = i
            · rw [if_pos hji] at h3
              exact Or.inr ⟨hji ▸ hp, h3⟩
            · rw [if_neg hji] at h3
              exact Or.inl h3
          · obtain ⟨hf, hsub⟩ := h3
            rw [hphase1 j] at hf
            by_cases hji : j = i
            · rw [if_pos hji] at hf
              exact absurd hf (by simp)
            · rw [if_neg hji] at hf
              exact Or.inr ⟨hf, hsub⟩
        refine ⟨?_, ?_, hdisj, ?_⟩
        · rw [hrun]; exact r1
        · rw [hrun, r2, hs1]
        · intro j hm
          rw [hrun]
          rcases List.mem_cons.mp hm with he | he
          · have hji : j = i := by injection he with h
            subst hji
            rcases r3 j with h3 | h3
            · rw [h3, hphase1 j, if_pos rfl]
              simp
            · rw [hphase1 j, if_pos rfl] at h3
              exact absurd h3.1 (by simp)
          · exact r4 j he
      · have hs1 : step s (GuardEvent.observe401 i) = s := step_observe_noop hp
        have hrun : runGuard s (GuardEvent.observe401 i :: evs)
            = runGuard s evs := by
          show runGuard (step s (GuardEvent.observe401 i)) evs = runGuard s evs
          rw [hs1]
        obtain ⟨r1, r2, r3, r4⟩ := ih s hobs' hr
        refine ⟨by rw [hrun]; exact r1, by rw [hrun]; exact r2,
          by rw [hrun]; exact r3, ?_⟩
        intro j hm
        rw [hrun]
        rcases List.mem_cons.mp hm with he | he
        · have hji : j = i := by injection he with h
          subst hji
          rcases r3 j with h3 | h3
          · rw [h3]; exact hp
          · rw [h3.2]; simp
        · exact r4 j he

/-- Once no initial fetch is outstanding, one delivery cannot recreate one
and cannot start a refresh (the only step that increments `refreshStarts`
requires a fetching call). -/
theorem step_no_fetching {n : Nat} {s : GuardState n}
    (h : ∀ j, s.phase j ≠ Phase.fetching) (ev : GuardEvent n) :
    (∀ j, (step s ev).phase j ≠ Phase.fetching)
    ∧ (step s ev).refreshStarts = s.refreshStarts := by
  cases ev with
  | observe401 i =>
      rw [step_observe_noop (h i)]
      exact ⟨h, rfl⟩
  | refreshSuccess i tok =>
      by_cases hp : s.phase i = Phase.refreshing
      · rw [step_refreshSuccess hp]
        refine ⟨?_, rfl⟩
        intro j
        dsimp only
        by_cases hc : j = i ∨ j ∈ s.subscribers
        · rw [if_pos hc]; simp
        · rw [if_neg hc]; exact h j
      · rw [step_refreshSuccess_noop hp]; exact ⟨h, rfl⟩
  | refreshFailure i =>
      by_cases hp : s.phase i = Phase.refreshing
      · rw [step_refreshFailure hp]
        refine ⟨?_, rfl⟩
        intro j
        dsimp only
        rw [Function.update_apply]
        by_cases hji : j = i
        · rw [if_pos hji]; simp
        · rw [if_neg hji]; exact h j
      · rw [step_refreshFailure_noop hp]; exact ⟨h, rfl⟩
  | retrySuccess i =>
      by_cases hp : ∃ t, s.phase i = Phase.retrying t
      · obtain ⟨t, hp⟩ := hp
        rw [step_retrySuccess hp]
        refine ⟨?_, rfl⟩
        intro j
        dsimp only
        rw [Function.update_apply]
        by_cases hji : j = i
        · rw [if_pos hji]; simp
        · rw [if_neg hji]; exact h j
      · rw [step_retrySuccess_noop (fun t ht => hp ⟨t, ht⟩)]; exact ⟨h, rfl⟩
  | retryFailure i =>
      by_cases hp : ∃ t, s.phase i = Phase.retrying t
      · obtain ⟨t, hp⟩ := hp
        rw [step_retryFailure hp]
        refine ⟨?_, rfl⟩
        intro j
        dsimp only
        rw [Function.update_apply]
        by_cases hji : j = i
        · rw [if_pos hji]; simp
        · rw [if_neg hji]; exact h j
      · rw [step_retryFailure_noop (fun t ht => hp ⟨t, ht⟩)]; exact ⟨h, rfl⟩

/-- One delivery preserves the post-observation state shape: the single
refresh count stays 1, at most one call is refreshing, and any token that
circulates stays the one value. -/
theorem postObs_step {n : Nat} {s : GuardState n}
    (hD : PostObs s) (ev : GuardEvent n) : PostObs (step s ev) := by
  obtain ⟨hnf, hrs, hone, htok⟩ := hD
  obtain ⟨hnf', hrs'⟩ := step_no_fetching hnf ev
  refine ⟨hnf', by rw [hrs', hrs], ?_⟩
  cases ev with
  | observe401 i =>
      rw [step_observe_noop (hnf i)]
      exact ⟨hone, htok⟩
  | refreshSuccess i tok =>
      by_cases hp : s.phase i = Phase.refreshing
      · have hnorefl : ∀ j, (step s (GuardEvent.refreshSuccess i tok)).phase j
            ≠ Phase.refreshing := by
          intro j
          rw [step_refreshSuccess hp]
          dsimp only
          by_cases hc : j = i ∨ j ∈ s.subscribers
          · rw [if_pos hc]; simp
          · rw [if_neg hc]
            intro hj
            exact hc (Or.inl (hone j i hj hp))
        refine ⟨fun j k hj _ => absurd hj (hnorefl j), ?_⟩
        rcases htok with hN | ⟨t0, hU⟩
        · refine Or.inr ⟨tok, hnorefl, ?_⟩
          intro j t hj
          rw [step_refreshSuccess hp] at hj
          dsimp only at hj
          by_cases hc : j = i ∨ j ∈ s.subscribers
          · rw [if_pos hc] at hj
            rcases hj with hj | hj
            · exact (Phase.retrying.inj hj.symm)
            · exact absurd hj (by simp)
          · rw [if_neg hc] at hj
            rcases hj with hj | hj
            · exact absurd hj (hN j t).1
            · exact absurd hj (hN j t).2
        · exact absurd hp (hU.1 i)
      · rw [step_refreshSuccess_noop hp]
        exact ⟨hone, htok⟩
  | refreshFailure i =>
      by_cases hp : s.phase i = Phase.refreshing
      · have hone' : ∀ j k, (step s (GuardEvent.refreshFailure i)).phase j
            = Phase.refreshing → (step s (GuardEvent.refreshFailure i)).phase k
            = Phase.refreshing → j = k := by
          intro j k hj hk
          rw [step_refreshFailure hp] at hj hk
          dsimp only at hj hk
          simp only [Function.update_apply] at hj hk
          by_cases hji : j = i
          · rw [if_pos hji] at hj; exact absurd hj (by simp)
          · rw [if_neg hji] at hj
            by_cases hki : k = i
            · rw [if_pos hki] at hk; exact absurd hk (by simp)
            · rw [if_neg hki] at hk
              exact hone j k hj hk
        refine ⟨hone', ?_⟩
        rcases htok with hN | ⟨t0, hU⟩
        · refine Or.inl ?_
          intro j t
          rw [step_refreshFailure hp]
          dsimp only
          rw [Function.update_apply]
          by_cases hji : j = i
          · rw [if_pos hji]
            constructor <;> simp
          · rw [if_neg hji]
            exact hN j t
        · exact absurd hp (hU.1 i)
      · rw [step_refreshFailure_noop hp]
        exact ⟨hone, htok⟩
  | retrySuccess i =>
      by_cases hp : ∃ t, s.phase i = Phase.retrying t
      · obtain ⟨t, hp⟩ := hp
        have hone' : ∀ j k, (step s (GuardEvent.retrySuccess i)).phase j
            = Phase.refreshing → (step s (GuardEvent.retrySuccess i)).phase k
            = Phase.refreshing → j = k := by
          intro j k hj hk
          rw [step_retrySuccess hp] at hj hk
          dsimp only at hj hk
          simp only [Function.update_apply] at hj hk
          by_cases hji : j = i
          · rw [if_pos hji] at hj; exact absurd hj (by simp)
          · rw [if_neg hji] at hj
            by_cases hki : k = i
            · rw [if_pos hki] at hk; exact absurd hk (by simp)
            · rw [if_neg hki] at hk
              exact hone j k hj hk
        refine ⟨hone', ?_⟩
        rcases htok with hN | ⟨t0, hU⟩
        · exact absurd hp (hN i t).1
        · refine Or.inr ⟨t0, ?_, ?_⟩
          · intro j
            rw [step_retrySuccess hp]
            dsimp only
            rw [Function.update_apply]
            by_cases hji : j = i
            · rw [if_pos hji]; simp
            · rw [if_neg hji]; exact hU.1 j
          · intro j u hj
            rw [step_retrySuccess hp] at hj
            dsimp only at hj
            rw [Function.update_apply] at hj
            by_cases hji : j = i
            · rw [if_pos hji] at hj
              have hut : u = t := by
                rcases hj with hj | hj
                · exact absurd hj (by simp)
                · exact Phase.succeeded.inj hj.symm
              subst hut
              exact hU.2 i u (Or.inl hp)
            · rw [if_neg hji] at hj
              exact hU.2 j u hj
      · rw [step_retrySuccess_noop (fun t ht => hp ⟨t, ht⟩)]
        exact ⟨hone, htok⟩
  | retryFailure i =>
      by_cases hp : ∃ t, s.phase i = Phase.retrying t
      · obtain ⟨t, hp⟩ := hp
        have hone' : ∀ j k, (step s (GuardEvent.retryFailure i)).phase j
            = Phase.refreshing → (step s (GuardEvent.retryFailure i)).phase k
            = Phase.refreshing → j = k := by
          intro j k hj hk
          rw [step_retryFailure hp] at hj hk
          dsimp only at hj hk
          simp only [Function.update_apply] at hj hk
          by_cases hji : j = i
          · rw [if_pos hji] at hj; exact absurd hj (by simp)
          · rw [if_neg hji] at hj
            by_cases hki : k = i
            · rw [if_pos hki] at hk; exact absurd hk (by simp)
            · rw [if_neg hki] at hk
              exact hone j k hj hk
        refine ⟨hone', ?_⟩
        rcases htok with hN | ⟨t0, hU⟩
        · exact absurd hp (hN i t).1
        · refine Or.inr ⟨t0, ?_, ?_⟩
          · intro j
            rw [step_retryFailure hp]
            dsimp only
            rw [Function.update_apply]
            by_cases hji : j = i
            · rw [if_pos hji]; simp
            · rw [if_neg hji]; exact hU.1 j
          · intro j u hj
            rw [step_retryFailure hp] at hj
            dsimp only at hj
            rw [Function.update_apply] at hj
            by_cases hji : j = i
            · rw [if_pos hji] at hj
              rcases hj with hj | hj <;> exact absurd hj (by simp)
            · rw [if_neg hji] at hj
              exact hU.2 j u hj
      · rw [step_retryFailure_noop (fun t ht => hp ⟨t, ht⟩)]
        exact ⟨hone, htok⟩

/-- The post-observation shape is preserved by any continuation schedule. -/
theorem postObs_run {n : Nat} (evs : List (GuardEvent n)) :
    ∀ s : GuardState n, PostObs s → PostObs (runGuard s evs) := by
  induction evs with
  | nil => intro s hD; exact hD
  | cons e evs ih =>
      intro s hD
      exact ih (step s e) (postObs_step hD e)

/-- Delivering retry successes for a list of calls that are all retrying (or
already settled) with one token settles exactly the listed calls with that
token. -/
theorem runGuard_retryAll {n : Nat} (L : List (Fin n)) :
    ∀ (s : GuardState n) (t : Nat),
      (∀ j, s.phase j = Phase.retrying t ∨ s.phase j = Phase.succeeded t) →
      ∀ j, (runGuard s (L.map GuardEvent.retrySuccess)).phase j
        = if j ∈ L then Phase.succeeded t else s.phase j := by
  induction L with
  | nil =>
      intro s t _ j
      simp [runGuard]
  | cons i L ih =>
      intro s t hall j
      have hs1 : ∀ k, (step s (GuardEvent.retrySuccess i)).phase k
          = if k = i then Phase.succeeded t else s.phase k := by
        intro k
        rcases hall i with hi | hi
        · rw [step_retrySuccess hi]
          dsimp only
          rw [Function.update_apply]
        · rw [step_retrySuccess_noop
            (fun u hu => by rw [hi] at hu; exact Phase.noConfusion hu)]
          by_cases hk : k = i
          · rw [if_pos hk, hk, hi]
          · rw [if_neg hk]
      have hall1 : ∀ k, (step s (GuardEvent.retrySuccess i)).phase k
          = Phase.retrying t ∨ (step s (GuardEvent.retrySuccess i)).phase k
          = Phase.succeeded t := by
        intro k
        rw [hs1 k]
        by_cases hk : k = i
        · rw [if_pos hk]; exact Or.inr rfl
        · rw [if_neg hk]; exact hall k
      have hrun : runGuard s ((i :: L).map GuardEvent.retrySuccess)
          = runGuard (step s (GuardEvent.retrySuccess i)) (L.map GuardEvent.retrySuccess) := rfl
      rw [hrun, ih (step s (GuardEvent.retrySuccess i)) t hall1 j, hs1 j]
      by_cases hjL : j ∈ L
      · simp [hjL]
      · by_cases hji : j = i
        · simp [hjL, hji]
        · simp [hjL, hji]

/-- After the first 401 handler leads and every other concurrent call
observes its 401 while that refresh is outstanding, the leader is
refreshing, every other call is subscribed, exactly one refresh has been
started and the refresh is still in flight. -/
theorem observations_shape {n : Nat} (i0 : Fin n) (obs : List (GuardEvent n))
    (hobs : ∀ e ∈ obs, ∃ j, e = GuardEvent.observe401 j)
    (hall : ∀ j : Fin n, GuardEvent.observe401 j ∈ GuardEvent.observe401 i0 :: obs) :
    (runGuard (startState n) (GuardEvent.observe401 i0 :: obs)).phase i0 = Phase.refreshing
    ∧ (∀ j, j ≠ i0 →
        (runGuard (startState n) (GuardEvent.observe401 i0 :: obs)).phase j = Phase.subscribed)
    ∧ (runGuard (startState n) (GuardEvent.observe401 i0 :: obs)).refreshStarts = 1
    ∧ (runGuard (startState n) (GuardEvent.observe401 i0 :: obs)).isRefreshing = true := by
  have hp0 : (startState n).phase i0 = Phase.fetching := rfl
  have hr0 : (startState n).isRefreshing = false := rfl
  have hs1 := step_observe_lead hp0 hr0
  have hrun : runGuard (startState n) (GuardEvent.observe401 i0 :: obs)
      = runGuard (step (startState n) (GuardEvent.observe401 i0)) obs := rfl
  have hphase1 : ∀ j, (step (startState n) (GuardEvent.observe401 i0)).phase j
      = if j = i0 then Phase.refreshing else Phase.fetching := by
    intro j
    rw [hs1]
    dsimp only [startState]
    rw [Function.update_apply]
  obtain ⟨r1, r2, r3, r4⟩ :=
    runGuard_observes obs (step (startState n) (GuardEvent.observe401 i0)) hobs
      (by rw [hs1])
  refine ⟨?_, ?_, ?_, ?_⟩
  · rw [hrun]
    rcases r3 i0 with h3 | h3
    · rw [h3, hphase1 i0, if_pos rfl]
    · rw [hphase1 i0, if_pos rfl] at h3
      exact absurd h3.1 (by simp)
  · intro j hji
    rw [hrun]
    have hmem : GuardEvent.observe401 j ∈ obs := by
      rcases List.mem_cons.mp (hall j) with he | he
      · exact absurd (GuardEvent.observe401.inj he) hji
      · exact he
    rcases r3 j with h3 | h3
    · rw [hphase1 j, if_neg hji] at h3
      exact absurd h3 (r4 j hmem)
    · exact h3.2
  · rw [hrun, r2, hs1]
    rfl
  · rw [hrun]; exact r1

/-- C3: single-flight refresh.  When every one of the `n` concurrent
`request` calls observes its 401 before the refresh resolves (the head call
leads, the others arrive during the refresh), exactly one
`refreshAccessToken` invocation is ever started, no matter what resolutions
follow; any two calls that ever hold a refreshed credential hold the same
one; and on refresh success the delivery of the broadcast plus each retry
completes every one of the `n` calls with that single refreshed credential. -/
theorem single_flight_refresh (n : Nat) (i0 : Fin n) (obs rest : List (GuardEvent n))
    (tok : Nat)
    (hobs : ∀ e ∈ obs, ∃ j, e = GuardEvent.observe401 j)
    (hall : ∀ j : Fin n, GuardEvent.observe401 j ∈ GuardEvent.observe401 i0 :: obs) :
    ((runGuard (startState n) ((GuardEvent.observe401 i0 :: obs) ++ rest)).refreshStarts = 1)
    ∧ (∀ j k tj tk,
        ((runGuard (startState n) ((GuardEvent.observe401 i0 :: obs) ++ rest)).phase j
            = Phase.retrying tj
          ∨ (runGuard (startState n) ((GuardEvent.observe401 i0 :: obs) ++ rest)).phase j
            = Phase.succeeded tj) →
        ((runGuard (startState n) ((GuardEvent.observe401 i0 :: obs) ++ rest)).phase k
            = Phase.retrying tk
          ∨ (runGuard (startState n) ((GuardEvent.observe401 i0 :: obs) ++ rest)).phase k
            = Phase.succeeded tk) →
        tj = tk)
    ∧ ((runGuard (startState n)
          ((GuardEvent.observe401 i0 :: obs)
            ++ (GuardEvent.refreshSuccess i0 tok
                :: (List.finRange n).map GuardEvent.retrySuccess))).phase
        = fun _ => Phase.succeeded tok) := by
  obtain ⟨hlead, hsubd, hstarts, hflight⟩ := observations_shape i0 obs hobs hall
  have hinv0 : GuardInv (runGuard (startState n) (GuardEvent.observe401 i0 :: obs)) :=
    guardInv_run _ _ (guardInv_start n)
  have hD0 : PostObs (runGuard (startState n) (GuardEvent.observe401 i0 :: obs)) := by
    refine ⟨?_, hstarts, ?_, Or.inl ?_⟩
    · intro j
      by_cases hji : j = i0
      · rw [hji, hlead]; simp
      · rw [hsubd j hji]; simp
    · intro j k hj hk
      by_cases hji : j = i0
      · by_cases hki : k = i0
        · rw [hji, hki]
        · rw [hsubd k hki] at hk
          exact absurd hk (by simp)
      · rw [hsubd j hji] at hj
        exact absurd hj (by simp)
    · intro j t
      by_cases hji : j = i0
      · rw [hji, hlead]; constructor <;> simp
      · rw [hsubd j hji]; constructor <;> simp
  have hDrest := postObs_run rest _ hD0
  refine ⟨?_, ?_, ?_⟩
  · rw [runGuard_append]
    exact hDrest.2.1
  · intro j k tj tk hj hk
    rw [runGuard_append] at hj hk
    rcases hDrest.2.2.2 with hN | ⟨t0, hU⟩
    · rcases hj with hj | hj
      · exact absurd hj (hN j tj).1
      · exact absurd hj (hN j tj).2
    · rw [hU.2 j tj hj, hU.2 k tk hk]
  · rw [runGuard_append]
    have hstep : ∀ j, (step (runGuard (startState n) (GuardEvent.observe401 i0 :: obs))
        (GuardEvent.refreshSuccess i0 tok)).phase j = Phase.retrying tok := by
      intro j
      rw [step_refreshSuccess hlead]
      dsimp only
      by_cases hc : j = i0
          ∨ j ∈ (runGuard (startState n) (GuardEvent.observe401 i0 :: obs)).subscribers
      · rw [if_pos hc]
      · exfalso
        apply hc
        by_cases hji : j = i0
        · exact Or.inl hji
        · exact Or.inr ((hinv0.subsIff j).mpr (hsubd j hji))
    have hrun2 : runGuard (runGuard (startState n) (GuardEvent.observe401 i0 :: obs))
        (GuardEvent.refreshSuccess i0 tok :: (List.finRange n).map GuardEvent.retrySuccess)
        = runGuard (step (runGuard (startState n) (GuardEvent.observe401 i0 :: obs))
            (GuardEvent.refreshSuccess i0 tok))
            ((List.finRange n).map GuardEvent.retrySuccess) := rfl
    rw [hrun2]
    funext x
    rw [runGuard_retryAll (List.finRange n) _ tok (fun j => Or.inl (hstep j)) x,
      if_pos (List.mem_finRange x)]

/-- C3 witness: two concurrent calls, call 0 leading, call 1 subscribing
during the refresh, token 7; the hypotheses are discharged by evaluation. -/
theorem single_flight_refresh_witness :
    (∀ e ∈ [GuardEvent.observe401 (1 : Fin 2)], ∃ j, e = GuardEvent.observe401 j)
    ∧ (∀ j : Fin 2, GuardEvent.observe401 j
        ∈ GuardEvent.observe401 (0 : Fin 2) :: [GuardEvent.observe401 (1 : Fin 2)])
    ∧ (((runGuard (startState 2) ((GuardEvent.observe401 (0 : Fin 2)
            :: [GuardEvent.observe401 (1 : Fin 2)]) ++ [])).refreshStarts = 1)
       ∧ (∀ j k tj tk,
            ((runGuard (startState 2) ((GuardEvent.observe401 (0 : Fin 2)
                :: [GuardEvent.observe401 (1 : Fin 2)]) ++ [])).phase j
                = Phase.retrying tj
              ∨ (runGuard (startState 2) ((GuardEvent.observe401 (0 : Fin 2)
                  :: [GuardEvent.observe401 (1 : Fin 2)]) ++ [])).phase j
                = Phase.succeeded tj) →
            ((runGuard (startState 2) ((GuardEvent.observe401 (0 : Fin 2)
                :: [GuardEvent.observe401 (1 : Fin 2)]) ++ [])).phase k
                = Phase.retrying tk
              ∨ (runGuard (startState 2) ((GuardEvent.observe401 (0 : Fin 2)
                  :: [GuardEvent.observe401 (1 : Fin 2)]) ++ [])).phase k
                = Phase.succeeded tk) →
            tj = tk)
       ∧ ((runGuard (startState 2)
            ((GuardEvent.observe401 (0 : Fin 2) :: [GuardEvent.observe401 (1 : Fin 2)])
              ++ (GuardEvent.refreshSuccess (0 : Fin 2) 7
                  :: (List.finRange 2).map GuardEvent.retrySuccess))).phase
            = fun _ => Phase.succeeded 7)) :=
  ⟨by decide, by decide,
    single_flight_refresh 2 0 [GuardEvent.observe401 (1 : Fin 2)] [] 7
      (by decide) (by decide)⟩

/-- A call whose promise settled with an error is final: no delivery changes
its phase or issues another retry for it. -/
theorem step_failed_fixed {n : Nat} {s : GuardState n} (hinv : GuardInv s)
    {i : Fin n} (h : s.phase i = Phase.failed) (ev : GuardEvent n) :
    (step s ev).phase i = Phase.failed ∧ (step s ev).retries i = s.retries i := by
  cases ev with
  | observe401 j =>
      by_cases hpj : s.phase j = Phase.fetching
      · have hij : i ≠ j := fun e => by rw [← e, h] at hpj; exact Phase.noConfusion hpj
        by_cases hr : s.isRefreshing = true
        · rw [step_observe_subscribe hpj hr]
          exact ⟨by simp [Function.update_noteq hij, h], rfl⟩
        · have hrf : s.isRefreshing = false := by
            cases hb : s.isRefreshing
            · rfl
            · exact absurd hb hr
          rw [step_observe_lead hpj hrf]
          exact ⟨by simp [Function.update_noteq hij, h], rfl⟩
      · rw [step_observe_noop hpj]; exact ⟨h, rfl⟩
  | refreshSuccess j tok =>
      by_cases hpj : s.phase j = Phase.refreshing
      · rw [step_refreshSuccess hpj]
        have hc : ¬(i = j ∨ i ∈ s.subscribers) := by
          rintro (rfl | hin)
          · rw [h] at hpj; exact Phase.noConfusion hpj
          · have := (hinv.subsIff i).mp hin
            rw [h] at this; exact Phase.noConfusion this
        constructor
        · dsimp only; rw [if_neg hc]; exact h
        · dsimp only; rw [if_neg hc]
      · rw [step_refreshSuccess_noop hpj]; exact ⟨h, rfl⟩
  | refreshFailure j =>
      by_cases hpj : s.phase j = Phase.refreshing
      · have hij : i ≠ j := fun e => by rw [← e, h] at hpj; exact Phase.noConfusion hpj
        rw [step_refreshFailure hpj]
        exact ⟨by simp [Function.update_noteq hij, h], rfl⟩
      · rw [step_refreshFailure_noop hpj]; exact ⟨h, rfl⟩
  | retrySuccess j =>
      by_cases hpj : ∃ t, s.phase j = Phase.retrying t
      · obtain ⟨t, hpj⟩ := hpj
        have hij : i ≠ j := fun e => by rw [← e, h] at hpj; exact Phase.noConfusion hpj
        rw [step_retrySuccess hpj]
        exact ⟨by simp [Function.update_noteq hij, h], rfl⟩
      · rw [step_retrySuccess_noop (fun t ht => hpj ⟨t, ht⟩)]; exact ⟨h, rfl⟩
  | retryFailure j =>
      by_cases hpj : ∃ t, s.phase j = Phase.retrying t
      · obtain ⟨t, hpj⟩ := hpj
        have hij : i ≠ j := fun e => by rw [← e, h] at hpj; exact Phase.noConfusion hpj
        rw [step_retryFailure hpj]
        exact ⟨by simp [Function.update_noteq hij, h], rfl⟩
      · rw [step_retryFailure_noop (fun t ht => hpj ⟨t, ht⟩)]; exact ⟨h, rfl⟩

/-- A failed call stays failed with the same retry count under any
continuation schedule. -/
theorem runGuard_failed_fixed {n : Nat} (evs : List (GuardEvent n)) :
    ∀ s : GuardState n, GuardInv s → ∀ i : Fin n, s.phase i = Phase.failed →
      (runGuard s evs).phase i = Phase.failed
      ∧ (runGuard s evs).retries i = s.retries i := by
  induction evs with
  | nil => intro s _ i h; exact ⟨h, rfl⟩
  | cons e evs ih =>
      intro s hinv i h
      obtain ⟨h1, h2⟩ := step_failed_fixed hinv h e
      obtain ⟨h3, h4⟩ := ih (step s e) (guardInv_step hinv e) i h1
      refine ⟨h3, ?_⟩
      show (runGuard (step s e) evs).retries i = s.retries i
      rw [h4, h2]

/-- C5: bounded retry.  Along every schedule from the start state, (1) a
call issues at most one retry fetch; (2) a call that is retrying or has
completed with a refreshed credential has re-issued its fetch exactly once;
(3) when a retry fetch fails (including with another 401), the delivery
surfaces the error on that call alone, starts no refresh (`refreshStarts`
unchanged) and issues no retry for any call (every retry counter
unchanged) — though a leader`s `catch` does clear the shared
`isRefreshing` flag (`api.ts` lines 94-97); (4) a failed call stays failed
with the same retry count under every continuation. -/
theorem bounded_retry (n : Nat) (sched ext : List (GuardEvent n)) (i : Fin n) :
    ((runGuard (startState n) sched).retries i ≤ 1)
    ∧ (∀ t, (runGuard (startState n) sched).phase i = Phase.retrying t
          ∨ (runGuard (startState n) sched).phase i = Phase.succeeded t →
        (runGuard (startState n) sched).retries i = 1)
    ∧ (∀ t, (runGuard (startState n) sched).phase i = Phase.retrying t →
        (step (runGuard (startState n) sched) (GuardEvent.retryFailure i)).phase i
            = Phase.failed
        ∧ (step (runGuard (startState n) sched) (GuardEvent.retryFailure i)).refreshStarts
            = (runGuard (startState n) sched).refreshStarts
        ∧ (∀ j, (step (runGuard (startState n) sched) (GuardEvent.retryFailure i)).retries j
            = (runGuard (startState n) sched).retries j))
    ∧ ((runGuard (startState n) sched).phase i = Phase.failed →
        (runGuard (startState n) (sched ++ ext)).phase i = Phase.failed
        ∧ (runGuard (startState n) (sched ++ ext)).retries i
            = (runGuard (startState n) sched).retries i) := by
  have hinv : GuardInv (runGuard (startState n) sched) :=
    guardInv_run sched (startState n) (guardInv_start n)
  refine ⟨hinv.retriesLe i, ?_, ?_, ?_⟩
  · intro t ht
    exact hinv.retriesOne i t ht
  · intro t ht
    rw [step_retryFailure ht]
    exact ⟨by simp [Function.update_same], rfl, fun j => rfl⟩
  · intro hf
    rw [runGuard_append]
    exact runGuard_failed_fixed ext _ hinv i hf

end GuilanCEA
